import Mathlib

/-!
Verification of the auto-scroll-to-first-header plugin.

The embedding models the current plugin class in `src/main.ts` (the
revision with settings `scrollDelayMs`, `enableAdjustPaddingForNonScrollable`,
`moveCursorToFirstHeader`, `enableSmoothScroll`).  DOM state that the code
reads or writes is represented explicitly; each method becomes a function
from that state to a new state paired with a trace of the DOM operations it
performed, in program order.  JavaScript runs single-threaded on an event
loop, so a callback deferred with `setTimeout` / `requestAnimationFrame`
runs strictly after the synchronous code that scheduled it; the embedding
renders that as sequential composition, with the deferred part's trace
appended after the scheduler's trace.
-/

namespace AutoScrollToFirstHeader

/-- Character class `\s` of JavaScript regular expressions (the whitespace
set used by `/^\s*#+\s+/`): tab, LF, VT, FF, CR, space, NBSP, and the
Unicode space separators plus line/paragraph separators, NNBSP, MMSP,
ideographic space and the BOM. -/
def isJsSpace (c : Char) : Bool :=
  c = ' ' || c = '\t' || c = '\n' || c.val = 11 || c.val = 12 || c = '\r' ||
  c.val = 0xa0 || c.val = 0x1680 || (0x2000 ≤ c.val && c.val ≤ 0x200a) ||
  c.val = 0x2028 || c.val = 0x2029 || c.val = 0x202f || c.val = 0x205f ||
  c.val = 0x3000 || c.val = 0xfeff

/-- Matcher for the anchored pattern `^\s*#+\s+` on a list of characters:
skip the maximal run of whitespace, require at least one `#`, skip the
rest of the `#` run, then require one more whitespace character.  Because
`\s` and `#` are disjoint, the greedy scan is exactly the backtracking
regex semantics. -/
def testHeaderChars (cs : List Char) : Bool :=
  match cs.dropWhile isJsSpace with
  | c0 :: rest =>
    c0 == '#' &&
      match rest.dropWhile (· == '#') with
      | c :: _ => isJsSpace c
      | [] => false
  | [] => false

/-- Model of `/^\s*#+\s+/.test(line)` from `src/main.ts`. -/
def testHeaderRegex (s : String) : Bool :=
  testHeaderChars s.data

/-- Declarative reading of the regular expression `^\s*#+\s+`: the line
decomposes as zero or more whitespace characters, then one or more `#`,
then a whitespace character, then anything. -/
def matchesHeaderPattern (s : String) : Prop :=
  ∃ ws hashes c rest, s.data = ws ++ hashes ++ c :: rest ∧
    (∀ x ∈ ws, isJsSpace x = true) ∧ hashes ≠ [] ∧
    (∀ x ∈ hashes, x = '#') ∧ isJsSpace c = true

/-- The regex scan over line texts (`src/main.ts` lines 233-240, and the
loop in the editing-mode branch of the older `scrollToFirstHeader`):
first index whose text the header regex accepts. -/
def locateByRegex (texts : List String) : Option Nat :=
  texts.findIdx? testHeaderRegex

/-- A rendered `.cm-line` element of the editing surface.  `id` stands for
DOM node identity (`===` between elements is id equality);
`isHyperMDHeader` records whether the element also carries the
`HyperMD-header` class; `offsetTop` is the element's vertical position
inside the `.cm-scroller` content. -/
structure LineEl where
  id : Nat
  textContent : String
  isHyperMDHeader : Bool
  offsetTop : Int
deriving Repr, DecidableEq

/-- The persisted plugin settings (`AutoScrollToFirstHeaderPluginSettings`). -/
structure Settings where
  scrollDelayMs : Nat
  enableAdjustPaddingForNonScrollable : Bool
  moveCursorToFirstHeader : Bool
  enableSmoothScroll : Bool
deriving Repr, DecidableEq

/-- The state of the active markdown view that the plugin reads and
mutates.  `mode` is the result of `view.getMode()` (or the `mode` field),
`none` when undefined.  `docLines` are the editor's logical lines
(`editor.getLine` / `lineCount`), `cmLines` the rendered `.cm-line`
elements under the editor element.  `scrollTop` is the `.cm-scroller`
scroll offset; `scrollIntoView`-style calls are modelled as setting the
relevant scroll offset to the target's `offsetTop` (top alignment).
`viewContentHeight` is `.view-content` `clientHeight` (`none` when that
element is absent); `cmSizerPadding` / `previewPadding` are the
`paddingBottom` styles of `.cm-sizer` / `.markdown-preview-view`, `none`
when the element is absent.  `previewHeadingOffset` is the offset of the
first `h1`..`h6` element inside the preview container (`none` when no such
element exists) and `previewLineOffsets` the offsets of the
`.markdown-preview-view .cm-line` elements. -/
structure View where
  mode : Option String
  docLines : List String
  cursorLine : Nat
  cursorCh : Nat
  cmLines : List LineEl
  hasScroller : Bool
  scrollTop : Int
  viewContentHeight : Option Nat
  cmSizerPadding : Option ℚ
  previewPadding : Option ℚ
  previewHeadingOffset : Option Int
  previewLineOffsets : List Int
  previewScrollTop : Int
deriving Repr, DecidableEq

/-- A DOM operation performed by the plugin, recorded in program order. -/
inductive DomOp where
  | setPaddingBottom (target : String) (px : ℚ)
  | measureScrollOffset (lineIndex : Nat)
  | scrollTo (top : Int) (smooth : Bool)
  | scrollIntoView (smooth : Bool)
  | setCursor (line ch : Nat)
deriving Repr, DecidableEq

/-- Whether the operation is a padding mutation from `adjustPadding`. -/
def DomOp.isPaddingMutation : DomOp → Bool
  | .setPaddingBottom _ _ => true
  | _ => false

/-- Whether the operation is the scroll-offset measurement
(`getBoundingClientRect` plus `scrollTop` read) of
`scrollEditorLineIntoView`. -/
def DomOp.isScrollMeasurement : DomOp → Bool
  | .measureScrollOffset _ => true
  | _ => false

/-- Model of `editor.getLine(i)`; out-of-range reads are modelled as the
empty string. -/
def getLine (docLines : List String) (i : Nat) : String :=
  docLines.getD i ""

/-- Model of `allLines[i] === headerLines[0]`: the loop in
`findFirstHeaderLine` that finds the first element of `lines` that is
identical (same DOM node) to `target`. -/
def indexOfById (lines : List LineEl) (target : LineEl) : Option Nat :=
  lines.findIdx? (fun l => l.id = target.id)

/-- `findFirstHeaderLine` (`src/main.ts` lines 222-241): when
`.cm-line.HyperMD-header` elements exist, match the first one by identity
against the full `.cm-line` sequence; otherwise (or should the identity
scan fall through) scan the line texts with the header regex. -/
def findFirstHeaderLine (lines : List LineEl) : Option Nat :=
  match (lines.filter (·.isHyperMDHeader)).head? with
  | some h =>
    match indexOfById lines h with
    | some i => some i
    | none => locateByRegex (lines.map (·.textContent))
  | none => locateByRegex (lines.map (·.textContent))

/-- `adjustPadding` (`src/main.ts` lines 319-333): when `.view-content`
exists, set `paddingBottom` of `.cm-sizer` and `.markdown-preview-view`
(each when present) to `max(clientHeight, 1) / 1.5` pixels. -/
def adjustPadding (v : View) : View × List DomOp :=
  match v.viewContentHeight with
  | none => (v, [])
  | some h =>
    let editorHeight : ℚ := ((max h 1 : ℕ) : ℚ)
    let padding : ℚ := editorHeight / 1.5
    ({ v with
        cmSizerPadding := v.cmSizerPadding.map (fun _ => padding),
        previewPadding := v.previewPadding.map (fun _ => padding) },
      (match v.cmSizerPadding with
        | some _ => [DomOp.setPaddingBottom "cm-sizer" padding]
        | none => []) ++
      (match v.previewPadding with
        | some _ => [DomOp.setPaddingBottom "markdown-preview-view" padding]
        | none => []))

/-- `scrollEditorLineIntoView` (`src/main.ts` lines 357-383): when line
`lineNumber` is rendered, scroll it to the top — via an explicit offset
computation on `.cm-scroller` when smooth scrolling is on and the
scroller exists, via `scrollIntoView` otherwise; a silent no-op when the
line is not rendered.  Nothing in the body can throw, matching the
enclosing try/catch never firing. -/
def scrollEditorLineIntoView (s : Settings) (v : View) (lineNumber : Nat) :
    View × List DomOp :=
  match v.cmLines.get? lineNumber with
  | none => (v, [])
  | some target =>
    if s.enableSmoothScroll then
      if v.hasScroller then
        let offset : Int := (target.offsetTop - v.scrollTop) + v.scrollTop
        ({ v with scrollTop := offset },
          [DomOp.measureScrollOffset lineNumber, DomOp.scrollTo offset true])
      else
        ({ v with scrollTop := target.offsetTop }, [DomOp.scrollIntoView true])
    else
      ({ v with scrollTop := target.offsetTop }, [DomOp.scrollIntoView false])

/-- `scrollEditorToFirstHeader` (`src/main.ts` lines 344-355): locate the
first header line; when found, optionally move the cursor to its
end-of-line, then scroll the line into view. -/
def scrollEditorToFirstHeader (s : Settings) (v : View) : View × List DomOp :=
  match findFirstHeaderLine v.cmLines with
  | none => (v, [])
  | some headerLine =>
    let step1 : View × List DomOp :=
      if s.moveCursorToFirstHeader then
        let headerLineText := getLine v.docLines headerLine
        ({ v with cursorLine := headerLine, cursorCh := headerLineText.length },
          [DomOp.setCursor headerLine headerLineText.length])
      else (v, [])
    ((scrollEditorLineIntoView s step1.1 headerLine).1,
      step1.2 ++ (scrollEditorLineIntoView s step1.1 headerLine).2)

/-- `scrollPreviewToFirstHeader` (`src/main.ts` lines 385-413): scroll the
first rendered `h1`..`h6` element into view; when none exists, fall back
to the header line located in the editor element, matched against the
preview's `.cm-line` elements. -/
def scrollPreviewToFirstHeader (s : Settings) (v : View) : View × List DomOp :=
  match v.previewHeadingOffset with
  | some o =>
    ({ v with previewScrollTop := o }, [DomOp.scrollIntoView s.enableSmoothScroll])
  | none =>
    match findFirstHeaderLine v.cmLines with
    | some headerLine =>
      match v.previewLineOffsets.get? headerLine with
      | some o =>
        ({ v with previewScrollTop := o },
          [DomOp.scrollIntoView s.enableSmoothScroll])
      | none => (v, [])
    | none => (v, [])

/-- `scrollToFirstHeader` (`src/main.ts` lines 335-342): dispatch on the
view mode; any mode other than `source`, `live` and `preview` (including
an undefined mode) does nothing. -/
def scrollToFirstHeader (s : Settings) (v : View) : View × List DomOp :=
  if v.mode = some "source" ∨ v.mode = some "live" then
    scrollEditorToFirstHeader s v
  else if v.mode = some "preview" then
    scrollPreviewToFirstHeader s v
  else (v, [])

/-- The `callScroll` closure of `handleFileOpen` (`src/main.ts` lines
272-288), entered when the scheduled wait completes.  `flashing` is the
result of `isFlashing()` at that moment.  When padding adjustment is
enabled, `scrollToFirstHeader` is deferred behind
`requestAnimationFrame` + `setTimeout` and hence runs after the
synchronous padding mutation; on the single-threaded event loop this is
sequential composition. -/
def callScroll (s : Settings) (flashing : Bool) (v : View) : View × List DomOp :=
  if flashing then (v, [])
  else if s.enableAdjustPaddingForNonScrollable then
    ((scrollToFirstHeader s (adjustPadding v).1).1,
      (adjustPadding v).2 ++ (scrollToFirstHeader s (adjustPadding v).1).2)
  else
    scrollToFirstHeader s v

/-- The `hasHeader` check of `handleFileOpen` (`src/main.ts` lines 290 and
297): a `.cm-line.HyperMD-header` element exists, or some `.cm-line`'s
text matches the header regex. -/
def hasHeader (lines : List LineEl) : Bool :=
  (lines.find? (·.isHyperMDHeader)).isSome ||
    lines.any (fun l => testHeaderRegex l.textContent)

/-- Deliveries of the `MutationObserver` installed by `handleFileOpen`,
counting invocations of `callScroll`: the observer stays connected until
a delivery whose editor snapshot satisfies `hasHeader`, at which point it
disconnects after triggering `callScroll` once; later snapshots are never
delivered.  Each element of the list is the editor's `.cm-line` state at
one delivery. -/
def observerDeliveries : List (List LineEl) → Nat
  | [] => 0
  | snap :: rest => if hasHeader snap then 1 else observerDeliveries rest

/-- Number of `callScroll` invocations caused by one `handleFileOpen`
event (`src/main.ts` lines 289-301): the handler installs the observer,
then runs the immediate `hasHeader` check on `initial`; a positive
immediate check disconnects the observer (also discarding any queued
records) before calling `callScroll`, so no delivery follows; otherwise
the observer's deliveries decide. -/
def handleFileOpenScrollCalls (initial : List LineEl)
    (later : List (List LineEl)) : Nat :=
  if hasHeader initial then 1 else observerDeliveries later

/-- Sample settings used to instantiate proved properties. -/
def exampleSettings : Settings :=
  { scrollDelayMs := 100, enableAdjustPaddingForNonScrollable := true,
    moveCursorToFirstHeader := true, enableSmoothScroll := true }

/-- Sample rendered line elements: a plain line, a rendered heading, a
plain line. -/
def exampleLines : List LineEl :=
  [{ id := 0, textContent := "intro", isHyperMDHeader := false, offsetTop := 0 },
   { id := 1, textContent := "# Title", isHyperMDHeader := true, offsetTop := 40 },
   { id := 2, textContent := "text", isHyperMDHeader := false, offsetTop := 80 }]

/-- Sample view in source mode used to instantiate proved properties. -/
def exampleView : View :=
  { mode := some "source", docLines := ["intro", "# Title", "text"],
    cursorLine := 0, cursorCh := 0, cmLines := exampleLines,
    hasScroller := true, scrollTop := 5, viewContentHeight := some 600,
    cmSizerPadding := some 0, previewPadding := none,
    previewHeadingOffset := none, previewLineOffsets := [],
    previewScrollTop := 0 }

/-! Helper lemmas. -/

theorem dropWhile_append_all {α} (p : α → Bool) (l₁ l₂ : List α)
    (h : ∀ x ∈ l₁, p x = true) :
    (l₁ ++ l₂).dropWhile p = l₂.dropWhile p := by
  induction l₁ with
  | nil => rfl
  | cons a t ih =>
    rw [List.cons_append, List.dropWhile_cons, h a (List.mem_cons_self a t),
      if_pos rfl]
    exact ih (fun x hx => h x (List.mem_cons_of_mem a hx))

theorem testHeaderRegex_iff (s : String) :
    testHeaderRegex s = true ↔ matchesHeaderPattern s := by
  unfold testHeaderRegex testHeaderChars matchesHeaderPattern
  constructor
  · intro h
    split at h
    next c0 rest heq =>
      rw [Bool.and_eq_true] at h
      obtain ⟨hc0, h⟩ := h
      rw [beq_iff_eq] at hc0
      subst hc0
      split at h
      next c tail heq2 =>
        have hr : rest = rest.takeWhile (· == '#') ++ (c :: tail) := by
          conv_lhs => rw [← List.takeWhile_append_dropWhile (· == '#') rest]
          rw [heq2]
        refine ⟨s.data.takeWhile isJsSpace, '#' :: rest.takeWhile (· == '#'),
          c, tail, ?_, ?_, by simp, ?_, h⟩
        · rw [List.append_assoc, List.cons_append, ← hr, ← heq,
            List.takeWhile_append_dropWhile]
        · intro x hx
          exact List.mem_takeWhile_imp hx
        · intro x hx
          rcases List.mem_cons.mp hx with rfl | hx
          · rfl
          · have hx' := List.mem_takeWhile_imp (p := (· == '#')) hx
            simpa using hx'
      next heq2 => simp at h
    next heq => simp at h
  · rintro ⟨ws, hashes, c, rest, hdecomp, hws, hne, hhash, hc⟩
    rw [hdecomp, List.append_assoc, dropWhile_append_all isJsSpace ws _ hws]
    obtain ⟨hs, rfl⟩ : ∃ hs, hashes = '#' :: hs := by
      cases hashes with
      | nil => exact absurd rfl hne
      | cons a t => exact ⟨t, by rw [hhash a (List.mem_cons_self a t)]⟩
    have h1 : isJsSpace '#' = false := by decide
    have h2 : ∀ x ∈ hs, (x == '#') = true := fun x hx =>
      beq_iff_eq.mpr (hhash x (List.mem_cons_of_mem _ hx))
    have h3 : (c == '#') = false := by
      rw [Bool.eq_false_iff]
      intro hcc
      rw [beq_iff_eq.mp hcc] at hc
      exact absurd hc (by decide)
    rw [List.cons_append, List.dropWhile_cons, h1]
    simp only [Bool.false_eq_true, if_false,
      dropWhile_append_all (· == '#') hs (c :: rest) h2, List.dropWhile_cons,
      h3, beq_self_eq_true, Bool.true_and]
    exact hc

theorem findIdx?_zero_spec {α} (p : α → Bool) (d : α) (l : List α) :
    ∀ i : Nat, l.findIdx? p = some i →
      i < l.length ∧ p (l.getD i d) = true ∧
      ∀ j, j < i → p (l.getD j d) = false := by
  induction l with
  | nil => intro i h; rw [List.findIdx?_nil] at h; exact absurd h (by simp)
  | cons a t ih =>
    intro i h
    rw [List.findIdx?_cons] at h
    by_cases hp : p a = true
    · rw [if_pos hp] at h
      injection h with h
      subst h
      refine ⟨by simp, by simpa using hp, ?_⟩
      intro j hj
      omega
    · rw [if_neg hp, List.findIdx?_succ] at h
      rcases ht : t.findIdx? p with _ | k
      · rw [ht] at h; simp at h
      · rw [ht] at h
        simp only [Option.map_some'] at h
        injection h with h
        subst h
        obtain ⟨h1, h2, h3⟩ := ih k ht
        refine ⟨by simpa using h1, by simpa using h2, ?_⟩
        intro j hj
        cases j with
        | zero =>
          rw [List.getD_cons_zero]
          exact Bool.eq_false_iff.mpr hp
        | succ j' =>
          rw [List.getD_cons_succ]
          exact h3 j' (by omega)

/-! Claim theorems. -/

/-- C1: for every finite list of line texts the regex scan `locateByRegex`
returns the lowest index whose line matches `^\s*#+\s+` (zero or more
leading whitespace, one or more `#`, then required whitespace), returns
`none` exactly when no line matches (in particular on the empty list),
and the line `#tag not a header` does not match. -/
theorem c1_locate_lowest_match (texts : List String) :
    (∀ i, locateByRegex texts = some i →
        i < texts.length ∧ matchesHeaderPattern (texts.getD i "") ∧
        ∀ j, j < i → ¬ matchesHeaderPattern (texts.getD j "")) ∧
    (locateByRegex texts = none ↔ ∀ t ∈ texts, ¬ matchesHeaderPattern t) ∧
    ¬ matchesHeaderPattern "#tag not a header" := by
  refine ⟨?_, ?_, ?_⟩
  · intro i h
    obtain ⟨h1, h2, h3⟩ := findIdx?_zero_spec testHeaderRegex "" texts i h
    refine ⟨h1, (testHeaderRegex_iff _).mp h2, ?_⟩
    intro j hj hm
    have hf := h3 j hj
    rw [(testHeaderRegex_iff _).mpr hm] at hf
    exact absurd hf (by simp)
  · rw [locateByRegex, List.findIdx?_eq_none_iff]
    constructor
    · intro h t ht hm
      have hf := h t ht
      rw [(testHeaderRegex_iff _).mpr hm] at hf
      exact absurd hf (by simp)
    · intro h t ht
      rw [Bool.eq_false_iff]
      intro htr
      exact h t ht ((testHeaderRegex_iff _).mp htr)
  · intro hm
    have htr : testHeaderRegex "#tag not a header" = true :=
      (testHeaderRegex_iff _).mpr hm
    exact absurd htr (by decide)

/-- C1 witness: on `["", "# Title", "text"]` the scan returns index 1 and
that line indeed matches the header pattern. -/
theorem c1_locate_lowest_match_witness :
    matchesHeaderPattern "# Title" :=
  ((c1_locate_lowest_match ["", "# Title", "text"]).1 1 (by decide)).2.1

theorem observerDeliveries_le_one (l : List (List LineEl)) :
    observerDeliveries l ≤ 1 := by
  induction l with
  | nil => simp [observerDeliveries]
  | cons a t ih => by_cases h : hasHeader a <;> simp [observerDeliveries, h, ih]

/-- C2: when the flashing indicator is present at the moment the scheduled
wait completes, `callScroll` abandons the pass for that event: the view
state is unchanged and no DOM operation (padding change, scroll, cursor
move) is performed. -/
theorem c2_flashing_abandons_pass (s : Settings) (v : View) :
    callScroll s true v = (v, []) := by
  unfold callScroll
  rw [if_pos rfl]

/-- C3: a single document-open event invokes `callScroll` (the pass body)
at most once, even though `handleFileOpen` both installs a mutation
observer and performs an immediate heading check. -/
theorem c3_at_most_one_pass (initial : List LineEl)
    (later : List (List LineEl)) :
    handleFileOpenScrollCalls initial later ≤ 1 := by
  unfold handleFileOpenScrollCalls
  by_cases h : hasHeader initial
  · rw [if_pos h]
  · rw [if_neg h]
    exact observerDeliveries_le_one later

/-- C5: `scrollEditorLineIntoView` is total (it cannot throw), and when
the line index is beyond the rendered line count it performs no scroll
and no state change at all. -/
theorem c5_scroll_out_of_range_noop (s : Settings) (v : View) (n : Nat)
    (h : v.cmLines.length ≤ n) :
    scrollEditorLineIntoView s v n = (v, []) := by
  unfold scrollEditorLineIntoView
  rw [List.get?_eq_getElem?, List.getElem?_eq_none h]

/-- C5 witness: index 99 is beyond the three rendered lines of the sample
view and the call is a no-op there. -/
theorem c5_scroll_out_of_range_noop_witness :
    scrollEditorLineIntoView exampleSettings exampleView 99 =
      (exampleView, []) :=
  c5_scroll_out_of_range_noop exampleSettings exampleView 99 (by decide)

/-- C10: when the view mode is neither `source` nor `live` nor `preview`
(for example undefined), `scrollToFirstHeader` performs no action: no
cursor move, no scroll, no DOM change. -/
theorem c10_unrecognized_mode_noop (s : Settings) (v : View)
    (h1 : v.mode ≠ some "source") (h2 : v.mode ≠ some "live")
    (h3 : v.mode ≠ some "preview") :
    scrollToFirstHeader s v = (v, []) := by
  unfold scrollToFirstHeader
  rw [if_neg (by rintro (h | h) <;> [exact h1 h; exact h2 h]), if_neg h3]

/-- C10 witness: on the sample view with an undefined mode the operation
does nothing. -/
theorem c10_unrecognized_mode_noop_witness :
    scrollToFirstHeader exampleSettings { exampleView with mode := none } =
      ({ exampleView with mode := none }, []) :=
  c10_unrecognized_mode_noop exampleSettings
    { exampleView with mode := none } (by decide) (by decide) (by decide)

theorem head_filter_mem {p : LineEl → Bool} {lines : List LineEl} {h : LineEl}
    (hh : (lines.filter p).head? = some h) : h ∈ lines ∧ p h = true := by
  have hm : h ∈ lines.filter p := by
    rcases List.head?_eq_some_iff.mp hh with ⟨ys, hys⟩
    rw [hys]
    exact List.mem_cons_self _ _
  exact ⟨(List.mem_filter.mp hm).1, (List.mem_filter.mp hm).2⟩

theorem findIdx_id_eq_findIdx_flag :
    ∀ (lines : List LineEl) (h : LineEl),
      (lines.map LineEl.id).Nodup →
      (lines.filter (·.isHyperMDHeader)).head? = some h →
      lines.findIdx? (fun l => l.id = h.id) =
        lines.findIdx? (·.isHyperMDHeader) := by
  intro lines
  induction lines with
  | nil => intro h _ hh; simp at hh
  | cons a t ih =>
    intro h hnd hh
    rw [List.map_cons, List.nodup_cons] at hnd
    obtain ⟨hna, hndt⟩ := hnd
    by_cases hf : a.isHyperMDHeader = true
    · rw [List.filter_cons_of_pos hf] at hh
      simp only [List.head?_cons, Option.some.injEq] at hh
      subst hh
      rw [List.findIdx?_cons, List.findIdx?_cons, if_pos (by simp),
        if_pos hf]
    · rw [List.filter_cons_of_neg (by simpa using hf)] at hh
      have hmem : h ∈ t := (head_filter_mem hh).1
      have hne : ¬ a.id = h.id := by
        intro he
        exact hna (he ▸ List.mem_map_of_mem LineEl.id hmem)
      rw [List.findIdx?_cons, List.findIdx?_cons, if_neg (by simpa using hne),
        if_neg (by simpa using hf), List.findIdx?_succ, List.findIdx?_succ,
        ih h hndt hh]

/-- C4: with distinct DOM nodes, whenever at least one rendered
`HyperMD-header` line exists, `findFirstHeaderLine` returns the index
obtained by matching the first such marker by identity against the full
`.cm-line` sequence (which is the index of the first flagged line), and
the regex scan over the line texts is used only when no marker exists. -/
theorem c4_renderer_marker_preferred (lines : List LineEl)
    (hnd : (lines.map LineEl.id).Nodup) :
    (∀ h, (lines.filter (·.isHyperMDHeader)).head? = some h →
      findFirstHeaderLine lines = indexOfById lines h ∧
      findFirstHeaderLine lines = lines.findIdx? (·.isHyperMDHeader)) ∧
    ((lines.filter (·.isHyperMDHeader)).head? = none →
      findFirstHeaderLine lines = locateByRegex (lines.map (·.textContent))) := by
  constructor
  · intro h hh
    have hid : indexOfById lines h = lines.findIdx? (·.isHyperMDHeader) :=
      findIdx_id_eq_findIdx_flag lines h hnd hh
    obtain ⟨hmem, hflag⟩ := head_filter_mem hh
    have hnn : lines.findIdx? (·.isHyperMDHeader) ≠ none := by
      rw [Ne, List.findIdx?_eq_none_iff]
      intro hall
      have hfa := hall h hmem
      rw [hflag] at hfa
      exact absurd hfa (by simp)
    rcases hk : lines.findIdx? (·.isHyperMDHeader) with _ | k
    · exact absurd hk hnn
    · have hidu : indexOfById lines h = some k := by rw [hid, hk]
      have hlhs : findFirstHeaderLine lines = some k := by
        unfold findFirstHeaderLine
        rw [hh]
        simp only []
        rw [hidu]
      exact ⟨by rw [hlhs, hidu], by rw [hlhs, hk]⟩
  · intro hh
    unfold findFirstHeaderLine
    rw [hh]

/-- C4 witness: on the sample lines (distinct ids, one rendered heading
marker at index 1) the locator returns the identity-match index of the
first marker, which is the first flagged index. -/
theorem c4_renderer_marker_preferred_witness :
    findFirstHeaderLine exampleLines =
      indexOfById exampleLines
        { id := 1, textContent := "# Title", isHyperMDHeader := true,
          offsetTop := 40 } ∧
    findFirstHeaderLine exampleLines =
      exampleLines.findIdx? (·.isHyperMDHeader) :=
  (c4_renderer_marker_preferred exampleLines (by decide)).1
    { id := 1, textContent := "# Title", isHyperMDHeader := true,
      offsetTop := 40 } (by decide)

theorem adjustPadding_cursor (v : View) :
    (adjustPadding v).1.cursorLine = v.cursorLine ∧
    (adjustPadding v).1.cursorCh = v.cursorCh := by
  unfold adjustPadding
  split
  · exact ⟨rfl, rfl⟩
  · exact ⟨rfl, rfl⟩

theorem scrollEditorLineIntoView_cursor (s : Settings) (v : View) (n : Nat) :
    (scrollEditorLineIntoView s v n).1.cursorLine = v.cursorLine ∧
    (scrollEditorLineIntoView s v n).1.cursorCh = v.cursorCh := by
  unfold scrollEditorLineIntoView
  split
  · exact ⟨rfl, rfl⟩
  · split
    · split
      · exact ⟨rfl, rfl⟩
      · exact ⟨rfl, rfl⟩
    · exact ⟨rfl, rfl⟩

theorem scrollPreviewToFirstHeader_cursor (s : Settings) (v : View) :
    (scrollPreviewToFirstHeader s v).1.cursorLine = v.cursorLine ∧
    (scrollPreviewToFirstHeader s v).1.cursorCh = v.cursorCh := by
  unfold scrollPreviewToFirstHeader
  split
  · exact ⟨rfl, rfl⟩
  · split
    · split
      · exact ⟨rfl, rfl⟩
      · exact ⟨rfl, rfl⟩
    · exact ⟨rfl, rfl⟩

theorem scrollToFirstHeader_cursor_frame (s : Settings) (v : View)
    (h : s.moveCursorToFirstHeader = false) :
    (scrollToFirstHeader s v).1.cursorLine = v.cursorLine ∧
    (scrollToFirstHeader s v).1.cursorCh = v.cursorCh := by
  unfold scrollToFirstHeader
  split
  · unfold scrollEditorToFirstHeader
    split
    · exact ⟨rfl, rfl⟩
    · next i hi =>
      rw [h]
      simp only [Bool.false_eq_true, if_false]
      exact scrollEditorLineIntoView_cursor s v i
  · split
    · exact scrollPreviewToFirstHeader_cursor s v
    · exact ⟨rfl, rfl⟩

/-- C7: when `moveCursorToFirstHeader` is off, the full executed pass
(padding adjustment, header location and scrolling) leaves the cursor
line and column exactly where they were, whatever the document, mode and
heading location. -/
theorem c7_cursor_unchanged_when_disabled (s : Settings) (flashing : Bool)
    (v : View) (h : s.moveCursorToFirstHeader = false) :
    (callScroll s flashing v).1.cursorLine = v.cursorLine ∧
    (callScroll s flashing v).1.cursorCh = v.cursorCh := by
  unfold callScroll
  split
  · exact ⟨rfl, rfl⟩
  · split
    · obtain ⟨h1, h2⟩ := adjustPadding_cursor v
      obtain ⟨h3, h4⟩ := scrollToFirstHeader_cursor_frame s (adjustPadding v).1 h
      exact ⟨h3.trans h1, h4.trans h2⟩
    · exact scrollToFirstHeader_cursor_frame s v h

/-- C7 witness: with cursor moving disabled, the executed pass on the
sample view keeps the cursor at its original position (0, 0). -/
theorem c7_cursor_unchanged_when_disabled_witness :
    (callScroll { exampleSettings with moveCursorToFirstHeader := false }
        false exampleView).1.cursorLine = exampleView.cursorLine ∧
    (callScroll { exampleSettings with moveCursorToFirstHeader := false }
        false exampleView).1.cursorCh = exampleView.cursorCh :=
  c7_cursor_unchanged_when_disabled
    { exampleSettings with moveCursorToFirstHeader := false } false
    exampleView rfl

/-- C9: in an editing surface (source or live mode) with a first heading
found and cursor moving enabled, the pass sets the cursor line to exactly
the heading's index and the column to 0 or to the end of that line's text
(the code picks end-of-line). -/
theorem c9_cursor_set_to_header_line (s : Settings) (v : View) (i : Nat)
    (hmode : v.mode = some "source" ∨ v.mode = some "live")
    (hmv : s.moveCursorToFirstHeader = true)
    (hfind : findFirstHeaderLine v.cmLines = some i) :
    (scrollToFirstHeader s v).1.cursorLine = i ∧
    ((scrollToFirstHeader s v).1.cursorCh = 0 ∨
      (scrollToFirstHeader s v).1.cursorCh = (getLine v.docLines i).length) := by
  unfold scrollToFirstHeader
  rw [if_pos hmode]
  unfold scrollEditorToFirstHeader
  rw [hfind]
  simp only [hmv, if_true]
  obtain ⟨hl, hc⟩ := scrollEditorLineIntoView_cursor s
    { v with cursorLine := i, cursorCh := (getLine v.docLines i).length } i
  exact ⟨hl, Or.inr hc⟩

/-- C9 witness: on the sample view the heading is at index 1 and the pass
puts the cursor on line 1 at the end of `# Title`. -/
theorem c9_cursor_set_to_header_line_witness :
    (scrollToFirstHeader exampleSettings exampleView).1.cursorLine = 1 ∧
    ((scrollToFirstHeader exampleSettings exampleView).1.cursorCh = 0 ∨
      (scrollToFirstHeader exampleSettings exampleView).1.cursorCh =
        (getLine exampleView.docLines 1).length) :=
  c9_cursor_set_to_header_line exampleSettings exampleView 1
    (Or.inl rfl) rfl (by decide)

theorem pad_not_measurement (op : DomOp)
    (h : op.isPaddingMutation = true) : op.isScrollMeasurement = false := by
  cases op <;> simp [DomOp.isScrollMeasurement]
  · exact absurd h (by simp [DomOp.isPaddingMutation])

theorem adjustPadding_trace_pad_only (v : View) :
    ∀ op ∈ (adjustPadding v).2, op.isPaddingMutation = true := by
  intro op hop
  unfold adjustPadding at hop
  cases hv : v.viewContentHeight with
  | none => rw [hv] at hop; simp at hop
  | some h =>
    rw [hv] at hop
    simp only [List.mem_append] at hop
    rcases hop with hop | hop
    · cases hcs : v.cmSizerPadding with
      | none => rw [hcs] at hop; simp at hop
      | some p => rw [hcs] at hop; simp at hop; rw [hop]; rfl
    · cases hpp : v.previewPadding with
      | none => rw [hpp] at hop; simp at hop
      | some p => rw [hpp] at hop; simp at hop; rw [hop]; rfl

theorem scrollEditorLineIntoView_trace_no_pad (s : Settings) (v : View)
    (n : Nat) :
    ∀ op ∈ (scrollEditorLineIntoView s v n).2, op.isPaddingMutation = false := by
  intro op hop
  unfold scrollEditorLineIntoView at hop
  split at hop
  · simp at hop
  · split at hop
    · split at hop
      · simp at hop
        rcases hop with hop | hop <;> rw [hop] <;> rfl
      · simp at hop; rw [hop]; rfl
    · simp at hop; rw [hop]; rfl

theorem scrollEditorToFirstHeader_trace_no_pad (s : Settings) (v : View) :
    ∀ op ∈ (scrollEditorToFirstHeader s v).2, op.isPaddingMutation = false := by
  intro op hop
  unfold scrollEditorToFirstHeader at hop
  split at hop
  · simp at hop
  · next i hi =>
    simp only [List.mem_append] at hop
    rcases hop with hop | hop
    · by_cases hmc : s.moveCursorToFirstHeader = true
      · rw [hmc] at hop
        simp at hop
        rw [hop]
        rfl
      · rw [Bool.eq_false_iff.mpr hmc] at hop
        simp at hop
    · exact scrollEditorLineIntoView_trace_no_pad s _ i op hop

theorem scrollPreviewToFirstHeader_trace_no_pad (s : Settings) (v : View) :
    ∀ op ∈ (scrollPreviewToFirstHeader s v).2, op.isPaddingMutation = false := by
  intro op hop
  unfold scrollPreviewToFirstHeader at hop
  split at hop
  · simp at hop; rw [hop]; rfl
  · split at hop
    · split at hop
      · simp at hop; rw [hop]; rfl
      · simp at hop
    · simp at hop

theorem scrollToFirstHeader_trace_no_pad (s : Settings) (v : View) :
    ∀ op ∈ (scrollToFirstHeader s v).2, op.isPaddingMutation = false := by
  intro op hop
  unfold scrollToFirstHeader at hop
  split at hop
  · exact scrollEditorToFirstHeader_trace_no_pad s v op hop
  · split at hop
    · exact scrollPreviewToFirstHeader_trace_no_pad s v op hop
    · simp at hop

theorem append_pad_before_measure {t1 t2 : List DomOp}
    (h1 : ∀ op ∈ t1, op.isPaddingMutation = true)
    (h2 : ∀ op ∈ t2, op.isPaddingMutation = false) :
    ∀ i j op1 op2, (t1 ++ t2).get? i = some op1 →
      (t1 ++ t2).get? j = some op2 →
      op1.isPaddingMutation = true → op2.isScrollMeasurement = true →
      i < j := by
  intro i j op1 op2 hi hj hp hm
  have hi' : i < t1.length := by
    by_contra hge
    push_neg at hge
    rw [List.get?_append_right hge] at hi
    have hmem : op1 ∈ t2 := List.get?_mem hi
    rw [h2 op1 hmem] at hp
    exact absurd hp (by simp)
  have hj' : t1.length ≤ j := by
    by_contra hlt
    push_neg at hlt
    rw [List.get?_append hlt] at hj
    have hmem : op2 ∈ t1 := List.get?_mem hj
    rw [pad_not_measurement op2 (h1 op2 hmem)] at hm
    exact absurd hm (by simp)
  omega


/-- C8: in an executed pass with padding adjustment enabled, every padding
mutation occurs strictly before every scroll measurement in the trace of
DOM operations, because the scroll is sequenced in a deferred callback
chained after the synchronous padding mutation. -/
theorem c8_padding_before_measurement (s : Settings) (v : View)
    (hp : s.enableAdjustPaddingForNonScrollable = true) :
    ∀ i j op1 op2,
      (callScroll s false v).2.get? i = some op1 →
      (callScroll s false v).2.get? j = some op2 →
      op1.isPaddingMutation = true → op2.isScrollMeasurement = true →
      i < j := by
  unfold callScroll
  rw [if_neg (by simp), if_pos hp]
  exact append_pad_before_measure (adjustPadding_trace_pad_only v)
    (scrollToFirstHeader_trace_no_pad s (adjustPadding v).1)

/-- C8 witness: on the sample view the trace is padding mutation, cursor
move, scroll measurement, scroll; the padding mutation at position 0
precedes the measurement at position 2. -/
theorem c8_padding_before_measurement_witness :
    exampleSettings.enableAdjustPaddingForNonScrollable = true ∧
      (0 : Nat) < 2 :=
  ⟨rfl, c8_padding_before_measurement exampleSettings exampleView rfl 0 2
    (DomOp.setPaddingBottom "cm-sizer" (((max 600 1 : ℕ) : ℚ) / 1.5))
    (DomOp.measureScrollOffset 1)
    rfl rfl rfl rfl⟩

theorem scrollEditorLineIntoView_state (s : Settings) (v : View) (n : Nat) :
    (scrollEditorLineIntoView s v n).1 =
      { v with scrollTop :=
          (v.cmLines.get? n).elim v.scrollTop (fun t => t.offsetTop) } := by
  unfold scrollEditorLineIntoView
  rcases hg : v.cmLines.get? n with _ | t
  · rfl
  · simp only [Option.elim]
    split
    · split
      · simp [sub_add_cancel]
      · rfl
    · rfl

theorem scrollEditorToFirstHeader_state (s : Settings) (v : View) :
    (scrollEditorToFirstHeader s v).1 =
      match findFirstHeaderLine v.cmLines with
      | none => v
      | some i =>
        if s.moveCursorToFirstHeader then
          { v with
              cursorLine := i
              cursorCh := (getLine v.docLines i).length
              scrollTop :=
                (v.cmLines.get? i).elim v.scrollTop (fun t => t.offsetTop) }
        else
          { v with scrollTop :=
              (v.cmLines.get? i).elim v.scrollTop (fun t => t.offsetTop) } := by
  unfold scrollEditorToFirstHeader
  rcases hf : findFirstHeaderLine v.cmLines with _ | i
  · rfl
  · simp only []
    split
    · rw [scrollEditorLineIntoView_state]
    · rw [scrollEditorLineIntoView_state]

theorem scrollPreviewToFirstHeader_state (s : Settings) (v : View) :
    (scrollPreviewToFirstHeader s v).1 =
      { v with previewScrollTop :=
          match v.previewHeadingOffset with
          | some o => o
          | none =>
            match findFirstHeaderLine v.cmLines with
            | some i => (v.previewLineOffsets.get? i).getD v.previewScrollTop
            | none => v.previewScrollTop } := by
  obtain ⟨vm, vdl, vcl, vcc, vcml, vhs, vst, vvch, vcsp, vpp, vpho, vplo,
    vpst⟩ := v
  unfold scrollPreviewToFirstHeader
  rcases vpho with _ | o
  · simp only []
    rcases hf : findFirstHeaderLine vcml with _ | i
    · rfl
    · simp only []
      rcases hg : vplo.get? i with _ | o2
      · rfl
      · rfl
  · rfl

theorem adjustPadding_state (v : View) :
    (adjustPadding v).1 =
      { v with
        cmSizerPadding :=
          match v.viewContentHeight with
          | none => v.cmSizerPadding
          | some h => v.cmSizerPadding.map (fun _ => ((max h 1 : ℕ) : ℚ) / 1.5)
        previewPadding :=
          match v.viewContentHeight with
          | none => v.previewPadding
          | some h =>
            v.previewPadding.map (fun _ => ((max h 1 : ℕ) : ℚ) / 1.5) } := by
  obtain ⟨vm, vdl, vcl, vcc, vcml, vhs, vst, vvch, vcsp, vpp, vpho, vplo,
    vpst⟩ := v
  unfold adjustPadding
  rcases vvch with _ | h
  · rfl
  · rfl

theorem callScroll_state (s : Settings) (v : View) :
    (callScroll s false v).1 =
      (scrollToFirstHeader s
        (if s.enableAdjustPaddingForNonScrollable then (adjustPadding v).1
         else v)).1 := by
  unfold callScroll
  rw [if_neg (by simp)]
  split
  · rfl
  · rfl

theorem scrollToFirstHeader_state (s : Settings) (v : View) :
    (scrollToFirstHeader s v).1 =
      if v.mode = some "source" ∨ v.mode = some "live" then
        match findFirstHeaderLine v.cmLines with
        | none => v
        | some i =>
          if s.moveCursorToFirstHeader then
            { v with
                cursorLine := i
                cursorCh := (getLine v.docLines i).length
                scrollTop :=
                  (v.cmLines.get? i).elim v.scrollTop (fun t => t.offsetTop) }
          else
            { v with scrollTop :=
                (v.cmLines.get? i).elim v.scrollTop (fun t => t.offsetTop) }
      else if v.mode = some "preview" then
        { v with previewScrollTop :=
            match v.previewHeadingOffset with
            | some o => o
            | none =>
              match findFirstHeaderLine v.cmLines with
              | some i => (v.previewLineOffsets.get? i).getD v.previewScrollTop
              | none => v.previewScrollTop }
      else v := by
  unfold scrollToFirstHeader
  split
  · exact scrollEditorToFirstHeader_state s v
  · split
    · exact scrollPreviewToFirstHeader_state s v
    · rfl

theorem adjustPadding_preserves (v : View) :
    (adjustPadding v).1.mode = v.mode ∧
    (adjustPadding v).1.docLines = v.docLines ∧
    (adjustPadding v).1.cursorLine = v.cursorLine ∧
    (adjustPadding v).1.cursorCh = v.cursorCh ∧
    (adjustPadding v).1.cmLines = v.cmLines ∧
    (adjustPadding v).1.hasScroller = v.hasScroller ∧
    (adjustPadding v).1.scrollTop = v.scrollTop ∧
    (adjustPadding v).1.previewHeadingOffset = v.previewHeadingOffset ∧
    (adjustPadding v).1.previewLineOffsets = v.previewLineOffsets ∧
    (adjustPadding v).1.previewScrollTop = v.previewScrollTop := by
  rw [adjustPadding_state]
  exact ⟨rfl, rfl, rfl, rfl, rfl, rfl, rfl, rfl, rfl, rfl⟩

theorem scrollToFirstHeader_preserves (s : Settings) (v : View) :
    (scrollToFirstHeader s v).1.mode = v.mode ∧
    (scrollToFirstHeader s v).1.docLines = v.docLines ∧
    (scrollToFirstHeader s v).1.cmLines = v.cmLines ∧
    (scrollToFirstHeader s v).1.previewHeadingOffset =
      v.previewHeadingOffset ∧
    (scrollToFirstHeader s v).1.previewLineOffsets = v.previewLineOffsets := by
  rw [scrollToFirstHeader_state]
  split
  · split
    · exact ⟨rfl, rfl, rfl, rfl, rfl⟩
    · split
      · exact ⟨rfl, rfl, rfl, rfl, rfl⟩
      · exact ⟨rfl, rfl, rfl, rfl, rfl⟩
  · split
    · exact ⟨rfl, rfl, rfl, rfl, rfl⟩
    · exact ⟨rfl, rfl, rfl, rfl, rfl⟩

theorem callScroll_preserves (s : Settings) (v : View) :
    (callScroll s false v).1.mode = v.mode ∧
    (callScroll s false v).1.docLines = v.docLines ∧
    (callScroll s false v).1.cmLines = v.cmLines ∧
    (callScroll s false v).1.previewHeadingOffset = v.previewHeadingOffset ∧
    (callScroll s false v).1.previewLineOffsets = v.previewLineOffsets := by
  rw [callScroll_state]
  split
  · obtain ⟨am, ad, _, _, ac, _, _, apo, apl, _⟩ := adjustPadding_preserves v
    obtain ⟨sm, sd, sc, spo, spl⟩ :=
      scrollToFirstHeader_preserves s (adjustPadding v).1
    exact ⟨sm.trans am, sd.trans ad, sc.trans ac, spo.trans apo,
      spl.trans apl⟩
  · exact scrollToFirstHeader_preserves s v

theorem scrollToFirstHeader_scrollTop (s : Settings) (v : View) :
    (scrollToFirstHeader s v).1.scrollTop =
      if v.mode = some "source" ∨ v.mode = some "live" then
        match findFirstHeaderLine v.cmLines with
        | some i => (v.cmLines.get? i).elim v.scrollTop (fun t => t.offsetTop)
        | none => v.scrollTop
      else v.scrollTop := by
  rw [scrollToFirstHeader_state]
  by_cases hmode : v.mode = some "source" ∨ v.mode = some "live"
  · rw [if_pos hmode, if_pos hmode]
    rcases hf : findFirstHeaderLine v.cmLines with _ | i
    · rfl
    · simp only []
      split
      · rfl
      · rfl
  · rw [if_neg hmode, if_neg hmode]
    split
    · rfl
    · rfl

theorem scrollToFirstHeader_cursorLine (s : Settings) (v : View) :
    (scrollToFirstHeader s v).1.cursorLine =
      if v.mode = some "source" ∨ v.mode = some "live" then
        match findFirstHeaderLine v.cmLines with
        | some i => if s.moveCursorToFirstHeader then i else v.cursorLine
        | none => v.cursorLine
      else v.cursorLine := by
  rw [scrollToFirstHeader_state]
  by_cases hmode : v.mode = some "source" ∨ v.mode = some "live"
  · rw [if_pos hmode, if_pos hmode]
    rcases hf : findFirstHeaderLine v.cmLines with _ | i
    · rfl
    · simp only []
      split
      · rfl
      · rfl
  · rw [if_neg hmode, if_neg hmode]
    split
    · rfl
    · rfl

theorem scrollToFirstHeader_cursorCh (s : Settings) (v : View) :
    (scrollToFirstHeader s v).1.cursorCh =
      if v.mode = some "source" ∨ v.mode = some "live" then
        match findFirstHeaderLine v.cmLines with
        | some i =>
          if s.moveCursorToFirstHeader then (getLine v.docLines i).length
          else v.cursorCh
        | none => v.cursorCh
      else v.cursorCh := by
  rw [scrollToFirstHeader_state]
  by_cases hmode : v.mode = some "source" ∨ v.mode = some "live"
  · rw [if_pos hmode, if_pos hmode]
    rcases hf : findFirstHeaderLine v.cmLines with _ | i
    · rfl
    · simp only []
      split
      · rfl
      · rfl
  · rw [if_neg hmode, if_neg hmode]
    split
    · rfl
    · rfl

theorem scrollToFirstHeader_previewScrollTop (s : Settings) (v : View) :
    (scrollToFirstHeader s v).1.previewScrollTop =
      if v.mode = some "source" ∨ v.mode = some "live" then
        v.previewScrollTop
      else if v.mode = some "preview" then
        match v.previewHeadingOffset with
        | some o => o
        | none =>
          match findFirstHeaderLine v.cmLines with
          | some i => (v.previewLineOffsets.get? i).getD v.previewScrollTop
          | none => v.previewScrollTop
      else v.previewScrollTop := by
  rw [scrollToFirstHeader_state]
  by_cases hmode : v.mode = some "source" ∨ v.mode = some "live"
  · rw [if_pos hmode, if_pos hmode]
    rcases hf : findFirstHeaderLine v.cmLines with _ | i
    · rfl
    · simp only []
      split
      · rfl
      · rfl
  · rw [if_neg hmode, if_neg hmode]
    split
    · rfl
    · rfl

theorem callScroll_scrollTop (s : Settings) (v : View) :
    (callScroll s false v).1.scrollTop =
      if v.mode = some "source" ∨ v.mode = some "live" then
        match findFirstHeaderLine v.cmLines with
        | some i => (v.cmLines.get? i).elim v.scrollTop (fun t => t.offsetTop)
        | none => v.scrollTop
      else v.scrollTop := by
  rw [callScroll_state]
  split
  · obtain ⟨am, _, _, _, ac, _, ast, _, _, _⟩ := adjustPadding_preserves v
    rw [scrollToFirstHeader_scrollTop s (adjustPadding v).1, am, ac, ast]
  · exact scrollToFirstHeader_scrollTop s v

theorem callScroll_cursorLine (s : Settings) (v : View) :
    (callScroll s false v).1.cursorLine =
      if v.mode = some "source" ∨ v.mode = some "live" then
        match findFirstHeaderLine v.cmLines with
        | some i => if s.moveCursorToFirstHeader then i else v.cursorLine
        | none => v.cursorLine
      else v.cursorLine := by
  rw [callScroll_state]
  split
  · obtain ⟨am, _, acl, _, ac, _, _, _, _, _⟩ := adjustPadding_preserves v
    rw [scrollToFirstHeader_cursorLine s (adjustPadding v).1, am, ac, acl]
  · exact scrollToFirstHeader_cursorLine s v

theorem callScroll_cursorCh (s : Settings) (v : View) :
    (callScroll s false v).1.cursorCh =
      if v.mode = some "source" ∨ v.mode = some "live" then
        match findFirstHeaderLine v.cmLines with
        | some i =>
          if s.moveCursorToFirstHeader then (getLine v.docLines i).length
          else v.cursorCh
        | none => v.cursorCh
      else v.cursorCh := by
  rw [callScroll_state]
  split
  · obtain ⟨am, ad, _, acc, ac, _, _, _, _, _⟩ := adjustPadding_preserves v
    rw [scrollToFirstHeader_cursorCh s (adjustPadding v).1, am, ac, ad, acc]
  · exact scrollToFirstHeader_cursorCh s v

theorem callScroll_previewScrollTop (s : Settings) (v : View) :
    (callScroll s false v).1.previewScrollTop =
      if v.mode = some "source" ∨ v.mode = some "live" then
        v.previewScrollTop
      else if v.mode = some "preview" then
        match v.previewHeadingOffset with
        | some o => o
        | none =>
          match findFirstHeaderLine v.cmLines with
          | some i => (v.previewLineOffsets.get? i).getD v.previewScrollTop
          | none => v.previewScrollTop
      else v.previewScrollTop := by
  rw [callScroll_state]
  split
  · obtain ⟨am, _, _, _, ac, _, _, apo, apl, apst⟩ := adjustPadding_preserves v
    rw [scrollToFirstHeader_previewScrollTop s (adjustPadding v).1, am, ac,
      apo, apl, apst]
  · exact scrollToFirstHeader_previewScrollTop s v

theorem callScroll_scrollTop_idem (s : Settings) (v : View) :
    (callScroll s false (callScroll s false v).1).1.scrollTop =
      (callScroll s false v).1.scrollTop := by
  obtain ⟨hm, hd, hc, hpho, hplo⟩ := callScroll_preserves s v
  rw [callScroll_scrollTop s (callScroll s false v).1, hm, hc]
  by_cases hmode : v.mode = some "source" ∨ v.mode = some "live"
  · rw [if_pos hmode]
    rcases hf : findFirstHeaderLine v.cmLines with _ | i
    · rfl
    · simp only []
      rcases hg : v.cmLines.get? i with _ | t
      · rfl
      · simp only [Option.elim]
        rw [callScroll_scrollTop s v, if_pos hmode, hf]
        simp only []
        rw [hg]
        rfl
  · rw [if_neg hmode]

theorem callScroll_cursorLine_idem (s : Settings) (v : View) :
    (callScroll s false (callScroll s false v).1).1.cursorLine =
      (callScroll s false v).1.cursorLine := by
  obtain ⟨hm, hd, hc, hpho, hplo⟩ := callScroll_preserves s v
  rw [callScroll_cursorLine s (callScroll s false v).1, hm, hc]
  by_cases hmode : v.mode = some "source" ∨ v.mode = some "live"
  · rw [if_pos hmode]
    rcases hf : findFirstHeaderLine v.cmLines with _ | i
    · rfl
    · simp only []
      by_cases hmv : s.moveCursorToFirstHeader = true
      · rw [if_pos hmv, callScroll_cursorLine s v, if_pos hmode, hf]
        simp only []
        rw [if_pos hmv]
      · rw [if_neg hmv]
  · rw [if_neg hmode]

theorem callScroll_cursorCh_idem (s : Settings) (v : View) :
    (callScroll s false (callScroll s false v).1).1.cursorCh =
      (callScroll s false v).1.cursorCh := by
  obtain ⟨hm, hd, hc, hpho, hplo⟩ := callScroll_preserves s v
  rw [callScroll_cursorCh s (callScroll s false v).1, hm, hc, hd]
  by_cases hmode : v.mode = some "source" ∨ v.mode = some "live"
  · rw [if_pos hmode]
    rcases hf : findFirstHeaderLine v.cmLines with _ | i
    · rfl
    · simp only []
      by_cases hmv : s.moveCursorToFirstHeader = true
      · rw [if_pos hmv, callScroll_cursorCh s v, if_pos hmode, hf]
        simp only []
        rw [if_pos hmv]
      · rw [if_neg hmv]
  · rw [if_neg hmode]

theorem callScroll_previewScrollTop_idem (s : Settings) (v : View) :
    (callScroll s false (callScroll s false v).1).1.previewScrollTop =
      (callScroll s false v).1.previewScrollTop := by
  obtain ⟨hm, hd, hc, hpho, hplo⟩ := callScroll_preserves s v
  rw [callScroll_previewScrollTop s (callScroll s false v).1, hm, hc, hpho,
    hplo]
  by_cases hmode : v.mode = some "source" ∨ v.mode = some "live"
  · rw [if_pos hmode]
  · rw [if_neg hmode]
    by_cases hprev : v.mode = some "preview"
    · rw [if_pos hprev]
      rcases hpo : v.previewHeadingOffset with _ | o
      · simp only []
        rcases hf : findFirstHeaderLine v.cmLines with _ | i
        · rfl
        · simp only []
          rcases hg : v.previewLineOffsets.get? i with _ | o2
          · rfl
          · simp only [Option.getD]
            rw [callScroll_previewScrollTop s v, if_neg hmode, if_pos hprev,
              hpo]
            simp only []
            rw [hf]
            simp only []
            rw [hg]
            rfl
      · simp only []
        rw [callScroll_previewScrollTop s v, if_neg hmode, if_pos hprev, hpo]
    · rw [if_neg hprev]

/-- C6: running the executed open-handling pass a second time on the
unchanged document (the pass never edits the lines, so the first heading
position is unchanged) yields the same final editor scroll offset,
preview scroll offset and cursor position as running it once: the pass is
idempotent and repeated application causes no drift. -/
theorem c6_pass_idempotent (s : Settings) (v : View) :
    (callScroll s false (callScroll s false v).1).1.scrollTop =
      (callScroll s false v).1.scrollTop ∧
    (callScroll s false (callScroll s false v).1).1.previewScrollTop =
      (callScroll s false v).1.previewScrollTop ∧
    (callScroll s false (callScroll s false v).1).1.cursorLine =
      (callScroll s false v).1.cursorLine ∧
    (callScroll s false (callScroll s false v).1).1.cursorCh =
      (callScroll s false v).1.cursorCh :=
  ⟨callScroll_scrollTop_idem s v, callScroll_previewScrollTop_idem s v,
   callScroll_cursorLine_idem s v, callScroll_cursorCh_idem s v⟩

end AutoScrollToFirstHeader
